import Mathlib

set_option maxHeartbeats 1000000

/- Shallow embedding of src/chip8.c, the CHIP-8 virtual machine core.
   uint8_t / uint16_t values are modelled as Nat with an explicit % 256 or
   % 65536 at exactly the points where the C types truncate.  An array
   access whose index can leave the array (undefined behavior in the C
   program) is modelled as an Option-valued access, with none standing for
   the out-of-bounds access. -/

-- Emulator states (chip8.c:19-23).
inductive emulator_state_t where
  | QUIT
  | RUNNING
  | PAUSED

open emulator_state_t

/-- CHIP8 machine (chip8.c:37-51).  The C struct additionally caches the
decoded current instruction (field inst, recomputed from ram and PC at the
top of emulate_instruction; it is kept as local values here) and the host
bookkeeping field rom_name (omitted).  The fixed-size C arrays are modelled
as functions from Nat, with every access site guarding the index exactly
where the array bound lies. -/
structure chip8_t where
  state : emulator_state_t
  ram : Nat → Nat          -- uint8_t ram[4096]
  display : Nat → Bool     -- bool display[64*32]
  stack : Nat → Nat        -- uint16_t stack[12]
  stack_ptr : Nat          -- index form of the C pointer into stack
  V : Nat → Nat            -- uint8_t V[16]
  I : Nat                  -- uint16_t I
  PC : Nat                 -- uint16_t PC
  delay_timer : Nat        -- uint8_t
  sound_timer : Nat        -- uint8_t
  keypad : Nat → Bool      -- bool keypad[16]

/-- Array element assignment a[i] = v. -/
def updf {α : Type} (f : Nat → α) (i : Nat) (v : α) : Nat → α :=
  fun k => if k = i then v else f k

/-- Guarded read of chip8->ram[a]: the array has 4096 cells; an index
outside it is an out-of-bounds access (undefined behavior) in the C
program, modelled as none. -/
def ramRead (ram : Nat → Nat) (a : Nat) : Option Nat :=
  if a < 4096 then some (ram a) else none

/-- Guarded write to chip8->ram[a]. -/
def ramWrite (ram : Nat → Nat) (a v : Nat) : Option (Nat → Nat) :=
  if a < 4096 then some (updf ram a v) else none

/-- One pixel of the DXYN inner loop (chip8.c:768-779): read the display
pixel, accumulate the collision flag, XOR the sprite bit into the pixel. -/
def drawStep (disp : Nat → Bool) (vf : Bool) (idx : Nat) (sprite_bit : Bool) :
    (Nat → Bool) × Bool :=
  (updf disp idx (Bool.xor (disp idx) sprite_bit), vf || (sprite_bit && disp idx))

/-- DXYN inner loop (chip8.c:768-784): for (j = 7; j >= 0; j--) over one
sprite row, with the early break once ++X_coord reaches the right edge.
config.window_width and config.window_height are fixed to 64 and 32 by
init_config (chip8.c:124-131; the CLI override loop is a no-op), so they
appear as the literals 64 and 32 throughout.  The display index
Y_coord * 64 + X_coord is guarded against the 64*32 = 2048-cell array.
At j = 0 the loop terminates whether or not the right edge was reached,
so the edge test is dropped there. -/
def drawCols (y data : Nat) : Nat → Nat → (Nat → Bool) → Bool → Option ((Nat → Bool) × Bool)
  | 0, x, disp, vf =>
      if y * 64 + x < 2048 then
        some (drawStep disp vf (y * 64 + x) (data.testBit 0))
      else none
  | j + 1, x, disp, vf =>
      if y * 64 + x < 2048 then
        let s := drawStep disp vf (y * 64 + x) (data.testBit (j + 1))
        if x + 1 ≥ 64 then some s
        else drawCols y data j (x + 1) s.1 s.2
      else none

/-- DXYN outer loop (chip8.c:763-789): for (i = 0; i < N; i++), rendered
with the remaining-iteration count rem = N - i.  Each iteration reads
sprite row ram[I + i] (guarded), draws it from column x0, then breaks once
++Y_coord reaches the bottom edge. -/
def drawRows (ram : Nat → Nat) (I x0 : Nat) :
    Nat → Nat → Nat → (Nat → Bool) → Bool → Option ((Nat → Bool) × Bool)
  | 0, _, _, disp, vf => some (disp, vf)
  | rem + 1, i, y, disp, vf =>
      match ramRead ram (I + i) with
      | none => none
      | some sprite_data =>
          match drawCols y sprite_data 7 x0 disp vf with
          | none => none
          | some dv =>
              if y + 1 ≥ 32 then some dv
              else drawRows ram I x0 rem (i + 1) (y + 1) dv.1 dv.2

/-- FX0A key scan (chip8.c:818-825): lowest-index held key, if any. -/
def findKey (keypad : Nat → Bool) : Nat → Nat → Option Nat
  | 0, _ => none
  | rem + 1, i => if keypad i then some i else findKey keypad rem (i + 1)

/-- FX55 register dump loop (chip8.c:864-865). -/
def regDump (V : Nat → Nat) (I : Nat) : Nat → Nat → (Nat → Nat) → Option (Nat → Nat)
  | 0, _, ram => some ram
  | rem + 1, i, ram =>
      match ramWrite ram (I + i) (V i) with
      | none => none
      | some ram2 => regDump V I rem (i + 1) ram2

/-- FX65 register load loop (chip8.c:871-872). -/
def regLoad (ram : Nat → Nat) (I : Nat) : Nat → Nat → (Nat → Nat) → Option (Nat → Nat)
  | 0, _, V => some V
  | rem + 1, i, V =>
      match ramRead ram (I + i) with
      | none => none
      | some v => regLoad ram I rem (i + 1) (updf V i v)

/-- emulate_instruction (chip8.c:585-883).  The parameter rv stands for
the value returned by rand() in the CXNN case.  The fetch reads the two
bytes ram[PC] and ram[PC+1] (chip8.c:588); both must lie inside the
4096-byte array, which the single guard PC + 1 < 4096 expresses.  The
switch statements are rendered as if-chains on the same scrutinees. -/
def emulate_instruction (rv : Nat) (c0 : chip8_t) : Option chip8_t :=
  if c0.PC + 1 < 4096 then
    let opcode := (c0.ram c0.PC) <<< 8 ||| c0.ram (c0.PC + 1)
    let c := { c0 with PC := (c0.PC + 2) % 65536 }
    let NNN := opcode &&& 0x0FFF
    let NN := opcode &&& 0x0FF
    let N := opcode &&& 0x0F
    let X := (opcode >>> 8) &&& 0x0F
    let Y := (opcode >>> 4) &&& 0x0F
    if (opcode >>> 12) &&& 0x0F = 0x0 then
      if NN = 0xE0 then
        some { c with display := fun _ => false }
      else if NN = 0xEE then
        -- chip8.c:614: chip8->PC = *--chip8->stack_ptr, with no underflow
        -- check: decrementing past the base of the 12-entry stack array is
        -- an out-of-bounds access, modelled as none.
        match c.stack_ptr with
        | 0 => none
        | m + 1 => if m < 12 then some { c with PC := c.stack m, stack_ptr := m } else none
      else some c
    else if (opcode >>> 12) &&& 0x0F = 0x1 then
      some { c with PC := NNN }
    else if (opcode >>> 12) &&& 0x0F = 0x2 then
      -- chip8.c:631: *chip8->stack_ptr++ = chip8->PC, with no overflow
      -- check: writing past the 12-entry stack array is an out-of-bounds
      -- access, modelled as none.
      if c.stack_ptr < 12 then
        some { c with stack := updf c.stack c.stack_ptr c.PC,
                      stack_ptr := c.stack_ptr + 1, PC := NNN }
      else none
    else if (opcode >>> 12) &&& 0x0F = 0x3 then
      if c.V X = NN then some { c with PC := (c.PC + 2) % 65536 } else some c
    else if (opcode >>> 12) &&& 0x0F = 0x4 then
      if c.V X ≠ NN then some { c with PC := (c.PC + 2) % 65536 } else some c
    else if (opcode >>> 12) &&& 0x0F = 0x5 then
      if N ≠ 0 then some c
      else if c.V X = c.V Y then some { c with PC := (c.PC + 2) % 65536 } else some c
    else if (opcode >>> 12) &&& 0x0F = 0x6 then
      some { c with V := updf c.V X NN }
    else if (opcode >>> 12) &&& 0x0F = 0x7 then
      some { c with V := updf c.V X ((c.V X + NN) % 256) }
    else if (opcode >>> 12) &&& 0x0F = 0x8 then
      if N = 0x0 then
        some { c with V := updf c.V X (c.V Y) }
      else if N = 0x1 then
        some { c with V := updf c.V X (c.V X ||| c.V Y) }
      else if N = 0x2 then
        some { c with V := updf c.V X (c.V X &&& c.V Y) }
      else if N = 0x3 then
        some { c with V := updf c.V X (c.V X ^^^ c.V Y) }
      else if N = 0x4 then
        -- carry computed first, V[X] written, then V[F] (chip8.c:692-695)
        some { c with V := updf (updf c.V X ((c.V X + c.V Y) % 256)) 15
                             (if 255 < c.V X + c.V Y then 1 else 0) }
      else if N = 0x5 then
        some { c with V := updf (updf c.V X ((c.V X + 256 - c.V Y) % 256)) 15
                             (if c.V Y ≤ c.V X then 1 else 0) }
      else if N = 0x6 then
        -- chip8.c:708-709: V[F] is written BEFORE the shift of V[X]
        some { c with V := updf (updf c.V 15 (c.V X &&& 0x1)) X
                             ((updf c.V 15 (c.V X &&& 0x1)) X >>> 1) }
      else if N = 0x7 then
        some { c with V := updf (updf c.V X ((c.V Y + 256 - c.V X) % 256)) 15
                             (if c.V X ≤ c.V Y then 1 else 0) }
      else if N = 0xE then
        -- chip8.c:722-723: V[F] is written BEFORE the shift of V[X]
        some { c with V := updf (updf c.V 15 ((c.V X &&& 0x80) >>> 7)) X
                             (((updf c.V 15 ((c.V X &&& 0x80) >>> 7)) X <<< 1) % 256) }
      else some c
    else if (opcode >>> 12) &&& 0x0F = 0x9 then
      if c.V X ≠ c.V Y then some { c with PC := (c.PC + 2) % 65536 } else some c
    else if (opcode >>> 12) &&& 0x0F = 0xA then
      some { c with I := NNN }
    else if (opcode >>> 12) &&& 0x0F = 0xB then
      some { c with PC := (NNN + c.V 0x0) % 65536 }
    else if (opcode >>> 12) &&& 0x0F = 0xC then
      some { c with V := updf c.V X ((rv % 256) &&& NN) }
    else if (opcode >>> 12) &&& 0x0F = 0xD then
      -- chip8.c:753-791: the blit.  V[0xF] is zeroed before the loop and
      -- possibly set to 1 inside it; the loop reads neither V nor V[F],
      -- so the final V[F] is exactly the accumulated collision flag.
      match drawRows c.ram c.I (c.V X % 64) N 0 (c.V Y % 32) c.display false with
      | none => none
      | some dv =>
          some { c with display := dv.1, V := updf c.V 15 (if dv.2 then 1 else 0) }
    else if (opcode >>> 12) &&& 0x0F = 0xE then
      -- chip8.c:797,802: keypad[V[X]] with no mask; the keypad array has
      -- 16 cells, so V[X] > 15 is an out-of-bounds read, modelled as none.
      if NN = 0x9E then
        if c.V X < 16 then
          (if c.keypad (c.V X) then some { c with PC := (c.PC + 2) % 65536 } else some c)
        else none
      else if NN = 0xA1 then
        if c.V X < 16 then
          (if ¬ c.keypad (c.V X) then some { c with PC := (c.PC + 2) % 65536 } else some c)
        else none
      else some c
    else if (opcode >>> 12) &&& 0x0F = 0xF then
      if NN = 0x07 then
        some { c with V := updf c.V X c.delay_timer }
      else if NN = 0x0A then
        match findKey c.keypad 16 0 with
        | some i => some { c with V := updf c.V X i }
        | none => some { c with PC := (c.PC + 65536 - 2) % 65536 }
      else if NN = 0x15 then
        some { c with delay_timer := c.V X }
      else if NN = 0x18 then
        some { c with sound_timer := c.V X }
      else if NN = 0x1E then
        some { c with I := (c.I + c.V X) % 65536 }
      else if NN = 0x29 then
        -- chip8.c:847: I = V[X] * 5, with no & 0x0F mask on V[X]
        some { c with I := (c.V X * 5) % 65536 }
      else if NN = 0x33 then
        -- chip8.c:853-858: BCD written at I+2, I+1, I, in that order
        match ramWrite c.ram (c.I + 2) (c.V X % 10) with
        | none => none
        | some r1 =>
            match ramWrite r1 (c.I + 1) ((c.V X / 10) % 10) with
            | none => none
            | some r2 =>
                match ramWrite r2 c.I ((c.V X / 10 / 10) % 10) with
                | none => none
                | some r3 => some { c with ram := r3 }
      else if NN = 0x55 then
        match regDump c.V c.I (X + 1) 0 c.ram with
        | none => none
        | some r2 => some { c with ram := r2 }
      else if NN = 0x65 then
        match regLoad c.ram c.I (X + 1) 0 c.V with
        | none => none
        | some V2 => some { c with V := V2 }
      else some c
    else some c
  else none

/-- Font table loaded at ram[0..79] by init_chip8 (chip8.c:64-84). -/
def font : List Nat :=
  [0xF0, 0x90, 0x90, 0x90, 0xF0,
   0x20, 0x60, 0x20, 0x20, 0x70,
   0xF0, 0x10, 0xF0, 0x80, 0xF0,
   0xF0, 0x10, 0xF0, 0x10, 0xF0,
   0x90, 0x90, 0xF0, 0x10, 0x10,
   0xF0, 0x80, 0xF0, 0x10, 0xF0,
   0xF0, 0x80, 0xF0, 0x90, 0xF0,
   0xF0, 0x10, 0x20, 0x40, 0x40,
   0xF0, 0x90, 0xF0, 0x90, 0xF0,
   0xF0, 0x90, 0xF0, 0x10, 0xF0,
   0xF0, 0x90, 0xF0, 0x90, 0x90,
   0xE0, 0x90, 0xE0, 0x90, 0xE0,
   0xF0, 0x80, 0x80, 0x80, 0xF0,
   0xE0, 0x90, 0x90, 0x90, 0xE0,
   0xF0, 0x80, 0xF0, 0x80, 0xF0,
   0xF0, 0x80, 0xF0, 0x80, 0x80]

/-- init_chip8 (chip8.c:59-119) for a ROM that loads successfully: the
machine is zero-initialized (chip8.c:892: chip8_t chip8 = \x7b0\x7d), the font
is stamped at 0x000, the ROM bytes are copied to 0x200, PC = 0x200, the
stack pointer is the stack base, and the state is RUNNING. -/
def init_chip8 (rom : List Nat) : chip8_t :=
  { state := RUNNING
    ram := fun a =>
      if a < 80 then font.getD a 0
      else if 0x200 ≤ a ∧ a < 0x200 + rom.length then rom.getD (a - 0x200) 0
      else 0
    display := fun _ => false
    stack := fun _ => 0
    stack_ptr := 0
    V := fun _ => 0
    I := 0
    PC := 0x200
    delay_timer := 0
    sound_timer := 0
    keypad := fun _ => false }

/-- One iteration of the main emulator loop (chip8.c:907-918) in the
RUNNING state with no pending host events: handle_input drains no events
(it mutates only keypad and the run state), then emulate_instruction runs;
SDL_Delay and update_screen do not touch the machine state.  The loop body
contains no other mutation of the machine. -/
def main_loop_iter (rv : Nat) (c : chip8_t) : Option chip8_t :=
  emulate_instruction rv c

/- ------------------------------------------------------------------ -/
/- Characterization of the DXYN loops.                                 -/
/- ------------------------------------------------------------------ -/

/-- Which display cell receives which sprite bit: a pure description of
the DXYN inner loop, mirrored on its recursion. -/
def colsMask (y data : Nat) : Nat → Nat → Nat → Bool
  | 0, x, p => decide (p = y * 64 + x) && data.testBit 0
  | j + 1, x, p =>
      (decide (p = y * 64 + x) && data.testBit (j + 1)) ||
      (if x + 1 ≥ 64 then false else colsMask y data j (x + 1) p)

/-- Where the DXYN inner loop meets an already-lit pixel. -/
def colsHit (y data : Nat) : Nat → Nat → (Nat → Bool) → Bool
  | 0, x, disp => data.testBit 0 && disp (y * 64 + x)
  | j + 1, x, disp =>
      (data.testBit (j + 1) && disp (y * 64 + x)) ||
      (if x + 1 ≥ 64 then false else colsHit y data j (x + 1) disp)

/-- Which display cell receives which sprite bit: outer loop version. -/
def rowsMask (ram : Nat → Nat) (I x0 : Nat) : Nat → Nat → Nat → Nat → Bool
  | 0, _, _, _ => false
  | rem + 1, i, y, p =>
      colsMask y (ram (I + i)) 7 x0 p ||
      (if y + 1 ≥ 32 then false else rowsMask ram I x0 rem (i + 1) (y + 1) p)

/-- Where the DXYN outer loop meets an already-lit pixel. -/
def rowsHit (ram : Nat → Nat) (I x0 : Nat) : Nat → Nat → Nat → (Nat → Bool) → Bool
  | 0, _, _, _ => false
  | rem + 1, i, y, disp =>
      colsHit y (ram (I + i)) 7 x0 disp ||
      (if y + 1 ≥ 32 then false else rowsHit ram I x0 rem (i + 1) (y + 1) disp)

lemma colsMask_ge (y data : Nat) :
    ∀ j x p, colsMask y data j x p = true → y * 64 + x ≤ p := by
  intro j
  induction j with
  | zero =>
      intro x p h
      simp only [colsMask, Bool.and_eq_true, decide_eq_true_eq] at h
      omega
  | succ j ih =>
      intro x p h
      simp only [colsMask, Bool.or_eq_true, Bool.and_eq_true, decide_eq_true_eq] at h
      rcases h with h | h
      · omega
      · by_cases hx : x + 1 ≥ 64
        · simp [hx] at h
        · simp only [if_neg hx] at h
          have := ih (x + 1) p h
          omega

lemma colsMask_lt (y data : Nat) :
    ∀ j x p, x < 64 → colsMask y data j x p = true → p < y * 64 + 64 := by
  intro j
  induction j with
  | zero =>
      intro x p hx h
      simp only [colsMask, Bool.and_eq_true, decide_eq_true_eq] at h
      omega
  | succ j ih =>
      intro x p hx h
      simp only [colsMask, Bool.or_eq_true, Bool.and_eq_true, decide_eq_true_eq] at h
      rcases h with h | h
      · omega
      · by_cases hb : x + 1 ≥ 64
        · simp [hb] at h
        · simp only [if_neg hb] at h
          exact ih (x + 1) p (by omega) h

lemma colsHit_congr (y data : Nat) :
    ∀ j x (d1 d2 : Nat → Bool), (∀ q, y * 64 + x ≤ q → d1 q = d2 q) →
      colsHit y data j x d1 = colsHit y data j x d2 := by
  intro j
  induction j with
  | zero =>
      intro x d1 d2 h
      simp only [colsHit]
      rw [h (y * 64 + x) (Nat.le_refl _)]
  | succ j ih =>
      intro x d1 d2 h
      simp only [colsHit]
      rw [h (y * 64 + x) (Nat.le_refl _)]
      by_cases hb : x + 1 ≥ 64
      · simp [hb]
      · simp only [if_neg hb]
        rw [ih (x + 1) d1 d2 (fun q hq => h q (by omega))]

lemma rowsMask_ge (ram : Nat → Nat) (I x0 : Nat) :
    ∀ rem i y p, rowsMask ram I x0 rem i y p = true → y * 64 ≤ p := by
  intro rem
  induction rem with
  | zero => intro i y p h; simp [rowsMask] at h
  | succ rem ih =>
      intro i y p h
      simp only [rowsMask, Bool.or_eq_true] at h
      rcases h with h | h
      · have := colsMask_ge y (ram (I + i)) 7 x0 p h
        omega
      · by_cases hb : y + 1 ≥ 32
        · simp [hb] at h
        · simp only [if_neg hb] at h
          have := ih (i + 1) (y + 1) p h
          omega

lemma rowsHit_congr (ram : Nat → Nat) (I x0 : Nat) :
    ∀ rem i y (d1 d2 : Nat → Bool), (∀ q, y * 64 ≤ q → d1 q = d2 q) →
      rowsHit ram I x0 rem i y d1 = rowsHit ram I x0 rem i y d2 := by
  intro rem
  induction rem with
  | zero => intro i y d1 d2 _; simp [rowsHit]
  | succ rem ih =>
      intro i y d1 d2 h
      simp only [rowsHit]
      rw [colsHit_congr y (ram (I + i)) 7 x0 d1 d2 (fun q hq => h q (by omega))]
      by_cases hb : y + 1 ≥ 32
      · simp [hb]
      · simp only [if_neg hb]
        rw [ih (i + 1) (y + 1) d1 d2 (fun q hq => h q (by omega))]

lemma drawCols_eq (y data : Nat) (hy : y < 32) :
    ∀ j x disp vf, x < 64 →
      drawCols y data j x disp vf =
        some (fun p => Bool.xor (disp p) (colsMask y data j x p),
              vf || colsHit y data j x disp) := by
  intro j
  induction j with
  | zero =>
      intro x disp vf hx
      have hpix : y * 64 + x < 2048 := by omega
      simp only [drawCols, if_pos hpix, drawStep, colsMask, colsHit]
      simp only [Option.some.injEq, Prod.mk.injEq]
      refine ⟨?_, trivial⟩
      funext p
      by_cases hp : p = y * 64 + x
      · subst hp; simp [updf]
      · simp [updf, hp]
  | succ j ih =>
      intro x disp vf hx
      have hpix : y * 64 + x < 2048 := by omega
      simp only [drawCols, if_pos hpix, drawStep]
      by_cases hb : x + 1 ≥ 64
      · simp only [if_pos hb]
        simp only [colsMask, colsHit, if_pos hb, Bool.or_false]
        simp only [Option.some.injEq, Prod.mk.injEq]
        refine ⟨?_, trivial⟩
        funext p
        by_cases hp : p = y * 64 + x
        · subst hp; simp [updf]
        · simp [updf, hp]
      · simp only [if_neg hb]
        rw [ih (x + 1) _ _ (by omega)]
        simp only [colsMask, colsHit, if_neg hb]
        simp only [Option.some.injEq, Prod.mk.injEq]
        refine ⟨?_, ?_⟩
        · funext p
          by_cases hp : p = y * 64 + x
          · subst hp
            have hm : colsMask y data j (x + 1) (y * 64 + x) = false := by
              by_contra hcon
              have : colsMask y data j (x + 1) (y * 64 + x) = true := by
                cases hcm : colsMask y data j (x + 1) (y * 64 + x)
                · exact absurd hcm hcon
                · rfl
              have := colsMask_ge y data j (x + 1) (y * 64 + x) this
              omega
            simp [updf, hm]
          · simp [updf, hp]
        · have hhit : colsHit y data j (x + 1)
              (updf disp (y * 64 + x) (Bool.xor (disp (y * 64 + x)) (data.testBit (j + 1))))
              = colsHit y data j (x + 1) disp := by
            apply colsHit_congr
            intro q hq
            have : q ≠ y * 64 + x := by omega
            simp [updf, this]
          rw [hhit]
          cases vf <;> cases hbit : (data.testBit (j + 1) && disp (y * 64 + x)) <;>
            cases hrest : colsHit y data j (x + 1) disp <;> rfl

lemma drawRows_eq (ram : Nat → Nat) (I x0 : Nat) (hx0 : x0 < 64) :
    ∀ rem i y disp vf, y < 32 →
      (∀ t, t < rem → y + t < 32 → I + i + t < 4096) →
      drawRows ram I x0 rem i y disp vf =
        some (fun p => Bool.xor (disp p) (rowsMask ram I x0 rem i y p),
              vf || rowsHit ram I x0 rem i y disp) := by
  intro rem
  induction rem with
  | zero =>
      intro i y disp vf hy hbound
      simp [drawRows, rowsMask, rowsHit]
  | succ rem ih =>
      intro i y disp vf hy hbound
      have hmem : I + i < 4096 := hbound 0 (by omega) (by omega)
      simp only [drawRows, ramRead, if_pos hmem]
      rw [drawCols_eq y (ram (I + i)) hy 7 x0 disp vf hx0]
      by_cases hb : y + 1 ≥ 32
      · simp only [if_pos hb]
        simp only [rowsMask, rowsHit, if_pos hb, Bool.or_false]
      · simp only [if_neg hb]
        rw [ih (i + 1) (y + 1) _ _ (by omega)
            (fun t ht hyt => by have := hbound (t + 1) (by omega) (by omega); omega)]
        simp only [rowsMask, rowsHit, if_neg hb]
        simp only [Option.some.injEq, Prod.mk.injEq]
        refine ⟨?_, ?_⟩
        · funext p
          cases hcm : colsMask y (ram (I + i)) 7 x0 p <;>
            cases hrm : rowsMask ram I x0 rem (i + 1) (y + 1) p
          · simp
          · simp
          · simp
          · exfalso
            have h1 := colsMask_lt y (ram (I + i)) 7 x0 p hx0 hcm
            have h2 := rowsMask_ge ram I x0 rem (i + 1) (y + 1) p hrm
            omega
        · have hcongr : rowsHit ram I x0 rem (i + 1) (y + 1)
              (fun p => Bool.xor (disp p) (colsMask y (ram (I + i)) 7 x0 p)) =
              rowsHit ram I x0 rem (i + 1) (y + 1) disp := by
            apply rowsHit_congr
            intro q hq
            have hcm : colsMask y (ram (I + i)) 7 x0 q = false := by
              cases hcm : colsMask y (ram (I + i)) 7 x0 q
              · rfl
              · exfalso
                have := colsMask_lt y (ram (I + i)) 7 x0 q hx0 hcm
                omega
            simp [hcm]
          rw [hcongr]
          cases vf <;> cases colsHit y (ram (I + i)) 7 x0 disp <;>
            cases rowsHit ram I x0 rem (i + 1) (y + 1) disp <;> rfl

/-- Effect of a DXYN instruction, characterized through rowsMask and
rowsHit, provided the fetch and all executed sprite-row reads stay inside
the 4096-byte ram. -/
lemma emulate_dxyn (rv : Nat) (c : chip8_t) (op X Y N : Nat)
    (hop : op = (c.ram c.PC) <<< 8 ||| c.ram (c.PC + 1))
    (hPC : c.PC + 1 < 4096)
    (hD : (op >>> 12) &&& 0x0F = 0xD)
    (hX : X = (op >>> 8) &&& 0x0F) (hY : Y = (op >>> 4) &&& 0x0F) (hN : N = op &&& 0x0F)
    (hmem : ∀ t, t < N → c.V Y % 32 + t < 32 → c.I + t < 4096) :
    emulate_instruction rv c =
      some { c with
        PC := (c.PC + 2) % 65536
        display := fun p => Bool.xor (c.display p)
          (rowsMask c.ram c.I (c.V X % 64) N 0 (c.V Y % 32) p)
        V := updf c.V 15
          (if rowsHit c.ram c.I (c.V X % 64) N 0 (c.V Y % 32) c.display then 1 else 0) } := by
  subst hop hX hY hN
  unfold emulate_instruction
  rw [if_pos hPC]
  simp only [hD]
  norm_num
  rw [drawRows_eq c.ram c.I _ (Nat.mod_lt _ (by norm_num)) _ 0 _ c.display false
      (Nat.mod_lt _ (by norm_num))
      (fun t ht hyt => by have := hmem t ht hyt; omega)]
  simp

lemma colsMask_closed (y' data x y : Nat) (hx : x < 64) :
    ∀ j x', x' < 64 →
      colsMask y' data j x' (y * 64 + x) =
        (decide (y = y') && decide (x' ≤ x) && decide (x ≤ x' + j) &&
         data.testBit (j - (x - x'))) := by
  intro j
  induction j with
  | zero =>
      intro x' hx'
      rw [Bool.eq_iff_iff]
      simp only [colsMask, Bool.and_eq_true, decide_eq_true_eq]
      constructor
      · rintro ⟨hcell, hbit⟩
        have h1 : y = y' := by omega
        have h2 : x = x' := by omega
        subst h1; subst h2
        refine ⟨⟨⟨rfl, Nat.le_refl x⟩, by omega⟩, ?_⟩
        simpa using hbit
      · rintro ⟨⟨⟨h1, h2⟩, h3⟩, hbit⟩
        have h4 : x = x' := by omega
        subst h1; subst h4
        refine ⟨by omega, ?_⟩
        simpa using hbit
  | succ j ih =>
      intro x' hx'
      by_cases hb : x' + 1 ≥ 64
      · have h63 : x' = 63 := by omega
        subst h63
        rw [Bool.eq_iff_iff]
        simp only [colsMask, if_pos hb, Bool.or_false, Bool.and_eq_true, decide_eq_true_eq]
        constructor
        · rintro ⟨hcell, hbit⟩
          have h1 : y = y' := by omega
          have h2 : x = 63 := by omega
          subst h1; subst h2
          refine ⟨⟨⟨rfl, by omega⟩, by omega⟩, ?_⟩
          simpa using hbit
        · rintro ⟨⟨⟨h1, h2⟩, h3⟩, hbit⟩
          have h4 : x = 63 := by omega
          subst h1; subst h4
          refine ⟨by omega, ?_⟩
          simpa using hbit
      · simp only [colsMask, if_neg hb]
        rw [ih (x' + 1) (by omega)]
        rw [Bool.eq_iff_iff]
        simp only [Bool.or_eq_true, Bool.and_eq_true, decide_eq_true_eq]
        constructor
        · rintro (⟨hcell, hbit⟩ | ⟨⟨⟨h1, h2⟩, h3⟩, hbit⟩)
          · have h1 : y = y' := by omega
            have h2 : x = x' := by omega
            subst h1; subst h2
            refine ⟨⟨⟨rfl, by omega⟩, by omega⟩, ?_⟩
            simpa using hbit
          · subst h1
            refine ⟨⟨⟨rfl, by omega⟩, by omega⟩, ?_⟩
            have hidx : j - (x - (x' + 1)) = j + 1 - (x - x') := by omega
            rw [hidx] at hbit
            exact hbit
        · rintro ⟨⟨⟨h1, h2⟩, h3⟩, hbit⟩
          subst h1
          by_cases hxx : x = x'
          · subst hxx
            left
            refine ⟨rfl, ?_⟩
            simpa using hbit
          · right
            refine ⟨⟨⟨rfl, by omega⟩, by omega⟩, ?_⟩
            have hidx : j - (x - (x' + 1)) = j + 1 - (x - x') := by omega
            rw [hidx]
            exact hbit

lemma rowsMask_closed (ram : Nat → Nat) (I x0 : Nat) (hx0 : x0 < 64) (x y : Nat)
    (hx : x < 64) (hy : y < 32) :
    ∀ rem i y', y' < 32 →
      rowsMask ram I x0 rem i y' (y * 64 + x) =
        (decide (y' ≤ y) && decide (y < y' + rem) && decide (x0 ≤ x) &&
         decide (x < x0 + 8) && (ram (I + i + (y - y'))).testBit (7 - (x - x0))) := by
  intro rem
  induction rem with
  | zero =>
      intro i y' hy'
      rw [Bool.eq_iff_iff]
      simp only [rowsMask, Bool.and_eq_true, decide_eq_true_eq]
      constructor
      · intro h; exact absurd h (by simp)
      · rintro ⟨⟨⟨⟨h1, h2⟩, _⟩, _⟩, _⟩
        omega
  | succ rem ih =>
      intro i y' hy'
      simp only [rowsMask]
      rw [colsMask_closed y' (ram (I + i)) x y hx 7 x0 hx0]
      by_cases hb : y' + 1 ≥ 32
      · simp only [if_pos hb, Bool.or_false]
        rw [Bool.eq_iff_iff]
        simp only [Bool.and_eq_true, decide_eq_true_eq]
        constructor
        · rintro ⟨⟨⟨h1, h2⟩, h3⟩, hbit⟩
          subst h1
          refine ⟨⟨⟨⟨by omega, by omega⟩, h2⟩, by omega⟩, ?_⟩
          rw [show I + i + (y - y) = I + i from by omega]
          exact hbit
        · rintro ⟨⟨⟨⟨h1, h2⟩, h3⟩, h4⟩, hbit⟩
          have hyy : y = y' := by omega
          subst hyy
          refine ⟨⟨⟨rfl, h3⟩, by omega⟩, ?_⟩
          rw [show I + i + (y - y) = I + i from by omega] at hbit
          exact hbit
      · simp only [if_neg hb]
        rw [ih (i + 1) (y' + 1) (by omega)]
        rw [Bool.eq_iff_iff]
        simp only [Bool.or_eq_true, Bool.and_eq_true, decide_eq_true_eq]
        constructor
        · rintro (⟨⟨⟨h1, h2⟩, h3⟩, hbit⟩ | ⟨⟨⟨⟨h1, h2⟩, h3⟩, h4⟩, hbit⟩)
          · subst h1
            refine ⟨⟨⟨⟨by omega, by omega⟩, h2⟩, by omega⟩, ?_⟩
            rw [show I + i + (y - y) = I + i from by omega]
            exact hbit
          · refine ⟨⟨⟨⟨by omega, by omega⟩, h3⟩, h4⟩, ?_⟩
            rw [show I + (i + 1) + (y - (y' + 1)) = I + i + (y - y') from by omega] at hbit
            exact hbit
        · rintro ⟨⟨⟨⟨h1, h2⟩, h3⟩, h4⟩, hbit⟩
          by_cases hyy : y = y'
          · subst hyy
            left
            refine ⟨⟨⟨rfl, h3⟩, by omega⟩, ?_⟩
            rw [show I + i + (y - y) = I + i from by omega] at hbit
            exact hbit
          · right
            refine ⟨⟨⟨⟨by omega, by omega⟩, h3⟩, h4⟩, ?_⟩
            rw [show I + (i + 1) + (y - (y' + 1)) = I + i + (y - y') from by omega]
            exact hbit

lemma rowsMask_lt2048 (ram : Nat → Nat) (I x0 : Nat) (hx0 : x0 < 64) :
    ∀ rem i y p, y < 32 → rowsMask ram I x0 rem i y p = true → p < 2048 := by
  intro rem
  induction rem with
  | zero => intro i y p hy h; simp [rowsMask] at h
  | succ rem ih =>
      intro i y p hy h
      simp only [rowsMask, Bool.or_eq_true] at h
      rcases h with h | h
      · have := colsMask_lt y (ram (I + i)) 7 x0 p hx0 h
        omega
      · by_cases hb : y + 1 ≥ 32
        · simp [hb] at h
        · simp only [if_neg hb] at h
          exact ih (i + 1) (y + 1) p (by omega) h

lemma colsHit_iff (y data : Nat) :
    ∀ j x disp, colsHit y data j x disp = true ↔
      ∃ p, colsMask y data j x p = true ∧ disp p = true := by
  intro j
  induction j with
  | zero =>
      intro x disp
      simp only [colsHit, colsMask, Bool.and_eq_true, decide_eq_true_eq]
      constructor
      · rintro ⟨hb, hd⟩
        exact ⟨y * 64 + x, ⟨rfl, hb⟩, hd⟩
      · rintro ⟨p, ⟨hp, hb⟩, hd⟩
        subst hp
        exact ⟨hb, hd⟩
  | succ j ih =>
      intro x disp
      by_cases hb : x + 1 ≥ 64
      · simp only [colsHit, colsMask, if_pos hb, Bool.or_false, Bool.and_eq_true,
          decide_eq_true_eq]
        constructor
        · rintro ⟨hbit, hd⟩
          exact ⟨y * 64 + x, ⟨rfl, hbit⟩, hd⟩
        · rintro ⟨p, ⟨hp, hbit⟩, hd⟩
          subst hp
          exact ⟨hbit, hd⟩
      · simp only [colsHit, colsMask, if_neg hb, Bool.or_eq_true, Bool.and_eq_true,
          decide_eq_true_eq]
        constructor
        · rintro (⟨hbit, hd⟩ | h)
          · exact ⟨y * 64 + x, Or.inl ⟨rfl, hbit⟩, hd⟩
          · obtain ⟨p, hm, hd⟩ := (ih (x + 1) disp).mp h
            exact ⟨p, Or.inr hm, hd⟩
        · rintro ⟨p, (⟨hp, hbit⟩ | hm), hd⟩
          · subst hp
            exact Or.inl ⟨hbit, hd⟩
          · exact Or.inr ((ih (x + 1) disp).mpr ⟨p, hm, hd⟩)

lemma rowsHit_iff (ram : Nat → Nat) (I x0 : Nat) :
    ∀ rem i y disp, rowsHit ram I x0 rem i y disp = true ↔
      ∃ p, rowsMask ram I x0 rem i y p = true ∧ disp p = true := by
  intro rem
  induction rem with
  | zero =>
      intro i y disp
      simp [rowsHit, rowsMask]
  | succ rem ih =>
      intro i y disp
      by_cases hb : y + 1 ≥ 32
      · simp only [rowsHit, rowsMask, if_pos hb, Bool.or_false]
        exact colsHit_iff y (ram (I + i)) 7 x0 disp
      · simp only [rowsHit, rowsMask, if_neg hb, Bool.or_eq_true]
        constructor
        · rintro (h | h)
          · obtain ⟨p, hm, hd⟩ := (colsHit_iff y (ram (I + i)) 7 x0 disp).mp h
            exact ⟨p, by simp [Bool.or_eq_true, hm], hd⟩
          · obtain ⟨p, hm, hd⟩ := (ih (i + 1) (y + 1) disp).mp h
            exact ⟨p, by simp [Bool.or_eq_true, hm], hd⟩
        · rintro ⟨p, hm, hd⟩
          rcases hm with hm | hm
          · exact Or.inl ((colsHit_iff y (ram (I + i)) 7 x0 disp).mpr ⟨p, hm, hd⟩)
          · exact Or.inr ((ih (i + 1) (y + 1) disp).mpr ⟨p, hm, hd⟩)

/-- The claim-level description of which framebuffer cell (x, y) receives a
sprite bit for DXYN with origin (x0, y0) and height N: a row index
y - y0 with y0 <= y < y0 + N, clipped at the bottom edge (y < 32; since the
rows are visited top to bottom this also expresses that drawing stops
there), a column index x - x0 with x0 <= x < x0 + 8, clipped at the right
edge (x < 64), taking bit 7 - (x - x0) of sprite byte ram[I + (y - y0)]
(most significant bit leftmost). -/
def targetB (ram : Nat → Nat) (I N x0 y0 x y : Nat) : Bool :=
  decide (y0 ≤ y) && decide (y < y0 + N) && decide (y < 32) &&
  decide (x0 ≤ x) && decide (x < x0 + 8) && decide (x < 64) &&
  (ram (I + (y - y0))).testBit (7 - (x - x0))

lemma rowsMask_eq_targetB (ram : Nat → Nat) (I x0 y0 N x y : Nat)
    (hx0 : x0 < 64) (hy0 : y0 < 32) (hx : x < 64) (hy : y < 32) :
    rowsMask ram I x0 N 0 y0 (y * 64 + x) = targetB ram I N x0 y0 x y := by
  rw [rowsMask_closed ram I x0 hx0 x y hx hy N 0 y0 hy0]
  rw [Bool.eq_iff_iff]
  simp only [targetB, Bool.and_eq_true, decide_eq_true_eq]
  constructor
  · rintro ⟨⟨⟨⟨h1, h2⟩, h3⟩, h4⟩, hbit⟩
    refine ⟨⟨⟨⟨⟨⟨h1, h2⟩, hy⟩, h3⟩, h4⟩, hx⟩, ?_⟩
    rw [show I + (y - y0) = I + 0 + (y - y0) from by omega]
    exact hbit
  · rintro ⟨⟨⟨⟨⟨⟨h1, h2⟩, _⟩, h3⟩, h4⟩, _⟩, hbit⟩
    refine ⟨⟨⟨⟨h1, h2⟩, h3⟩, h4⟩, ?_⟩
    rw [show I + 0 + (y - y0) = I + (y - y0) from by omega]
    exact hbit

/- ------------------------------------------------------------------ -/
/- Claim theorems.                                                     -/
/- ------------------------------------------------------------------ -/

/-- Claim C1: for every DXYN instruction, the blit origin is
x0 = V[X] mod 64 and y0 = V[Y] mod 32 (origin wraps); VF is set to 0
before drawing (its final value is the pure collision flag: 0 or 1, and 0
whenever no collision happened); each of the N sprite rows is XORed into
the framebuffer with rows clipped at the bottom edge (targetB excludes
every row with y0 + row >= 32, and the hmem hypothesis shows rows at or
below the bottom edge are never even read: drawing stops) and pixels
clipped at the right edge (a pixel with x0 + col >= 64 is not drawn and
the row ends), most significant bit of each sprite byte leftmost; and
VF = 1 iff some framebuffer pixel that was on is toggled off, i.e. iff
some drawn sprite bit lands on a lit pixel. -/
theorem C1_dxyn_blit (rv : Nat) (c : chip8_t) (op X Y N x0 y0 : Nat)
    (hop : op = (c.ram c.PC) <<< 8 ||| c.ram (c.PC + 1))
    (hPC : c.PC + 1 < 4096)
    (hD : (op >>> 12) &&& 0x0F = 0xD)
    (hX : X = (op >>> 8) &&& 0x0F) (hY : Y = (op >>> 4) &&& 0x0F) (hN : N = op &&& 0x0F)
    (hx0 : x0 = c.V X % 64) (hy0 : y0 = c.V Y % 32)
    (hmem : ∀ t, t < N → y0 + t < 32 → c.I + t < 4096) :
    ∃ c2, emulate_instruction rv c = some c2 ∧
      c2.PC = (c.PC + 2) % 65536 ∧
      (∀ x y, x < 64 → y < 32 →
        c2.display (y * 64 + x) =
          Bool.xor (c.display (y * 64 + x)) (targetB c.ram c.I N x0 y0 x y)) ∧
      (c2.V 15 = 0 ∨ c2.V 15 = 1) ∧
      (c2.V 15 = 1 ↔ ∃ x y, x < 64 ∧ y < 32 ∧
          targetB c.ram c.I N x0 y0 x y = true ∧ c.display (y * 64 + x) = true) ∧
      (∀ r, r < 15 → c2.V r = c.V r) := by
  subst hx0; subst hy0
  have hx0' : c.V X % 64 < 64 := Nat.mod_lt _ (by norm_num)
  have hy0' : c.V Y % 32 < 32 := Nat.mod_lt _ (by norm_num)
  have hiff : (updf c.V 15
        (if rowsHit c.ram c.I (c.V X % 64) N 0 (c.V Y % 32) c.display then 1 else 0) 15 = 1)
      ↔ rowsHit c.ram c.I (c.V X % 64) N 0 (c.V Y % 32) c.display = true := by
    simp only [updf, if_pos]
    cases rowsHit c.ram c.I (c.V X % 64) N 0 (c.V Y % 32) c.display <;> simp
  have hmain : rowsHit c.ram c.I (c.V X % 64) N 0 (c.V Y % 32) c.display = true ↔
      ∃ x y, x < 64 ∧ y < 32 ∧
        targetB c.ram c.I N (c.V X % 64) (c.V Y % 32) x y = true ∧
        c.display (y * 64 + x) = true := by
    rw [rowsHit_iff]
    constructor
    · rintro ⟨p, hm, hd⟩
      have hp2048 := rowsMask_lt2048 c.ram c.I _ hx0' N 0 _ p hy0' hm
      refine ⟨p % 64, p / 64, Nat.mod_lt _ (by norm_num), by omega, ?_, ?_⟩
      · rw [← rowsMask_eq_targetB c.ram c.I _ _ N (p % 64) (p / 64) hx0' hy0'
            (Nat.mod_lt _ (by norm_num)) (by omega)]
        rw [show p / 64 * 64 + p % 64 = p from by omega]
        exact hm
      · rw [show p / 64 * 64 + p % 64 = p from by omega]
        exact hd
    · rintro ⟨x, y, hx, hy, htgt, hd⟩
      refine ⟨y * 64 + x, ?_, hd⟩
      rw [rowsMask_eq_targetB c.ram c.I _ _ N x y hx0' hy0' hx hy]
      exact htgt
  refine ⟨_, emulate_dxyn rv c op X Y N hop hPC hD hX hY hN hmem, rfl, ?_, ?_, ?_, ?_⟩
  · intro x y hx hy
    rw [← rowsMask_eq_targetB c.ram c.I _ _ N x y hx0' hy0' hx hy]
  · show updf c.V 15
        (if rowsHit c.ram c.I (c.V X % 64) N 0 (c.V Y % 32) c.display then 1 else 0) 15 = 0
      ∨ updf c.V 15
        (if rowsHit c.ram c.I (c.V X % 64) N 0 (c.V Y % 32) c.display then 1 else 0) 15 = 1
    simp only [updf, if_pos]
    cases rowsHit c.ram c.I (c.V X % 64) N 0 (c.V Y % 32) c.display <;> simp
  · exact hiff.trans hmain
  · intro r hr
    show updf c.V 15
        (if rowsHit c.ram c.I (c.V X % 64) N 0 (c.V Y % 32) c.display then 1 else 0) r = c.V r
    simp only [updf]
    rw [if_neg (by omega)]

/-- Concrete machine for the C1 witness: opcode D012 at PC = 0x200,
I = 0, all registers zero. -/
def c1W : chip8_t :=
  { state := RUNNING
    ram := fun a => if a = 0x200 then 0xD0 else if a = 0x201 then 0x12 else 0
    display := fun _ => false
    stack := fun _ => 0
    stack_ptr := 0
    V := fun _ => 0
    I := 0
    PC := 0x200
    delay_timer := 0
    sound_timer := 0
    keypad := fun _ => false }

theorem C1_dxyn_blit_witness :
    (0xD012 = (c1W.ram c1W.PC) <<< 8 ||| c1W.ram (c1W.PC + 1)) ∧
    (c1W.PC + 1 < 4096) ∧
    ((0xD012 >>> 12) &&& 0x0F = 0xD) ∧
    (∃ c2, emulate_instruction 0 c1W = some c2 ∧
      c2.PC = (c1W.PC + 2) % 65536 ∧
      (∀ x y, x < 64 → y < 32 →
        c2.display (y * 64 + x) =
          Bool.xor (c1W.display (y * 64 + x)) (targetB c1W.ram c1W.I 2 0 0 x y)) ∧
      (c2.V 15 = 0 ∨ c2.V 15 = 1) ∧
      (c2.V 15 = 1 ↔ ∃ x y, x < 64 ∧ y < 32 ∧
          targetB c1W.ram c1W.I 2 0 0 x y = true ∧ c1W.display (y * 64 + x) = true) ∧
      (∀ r, r < 15 → c2.V r = c1W.V r)) :=
  ⟨by decide, by decide, by decide,
    C1_dxyn_blit 0 c1W 0xD012 0 1 2 0 0 (by decide) (by decide) (by decide)
      (by decide) (by decide) (by decide) (by decide) (by decide)
      (by intro t ht hy; simp only [c1W]; omega)⟩

/-- Claim C10: for every machine state, executing DXYN with N = 0 writes
VF := 0 unconditionally (the flag is zeroed before the loop even though
zero sprite rows are drawn) and leaves the entire framebuffer unchanged;
besides the pre-incremented PC, no other machine state changes. -/
theorem C10_dxyn_n0 (rv : Nat) (c : chip8_t) (op X Y : Nat)
    (hop : op = (c.ram c.PC) <<< 8 ||| c.ram (c.PC + 1))
    (hPC : c.PC + 1 < 4096)
    (hD : (op >>> 12) &&& 0x0F = 0xD)
    (hX : X = (op >>> 8) &&& 0x0F) (hY : Y = (op >>> 4) &&& 0x0F)
    (hN : op &&& 0x0F = 0) :
    ∃ c2, emulate_instruction rv c = some c2 ∧
      c2.display = c.display ∧ c2.V 15 = 0 ∧
      c2.PC = (c.PC + 2) % 65536 ∧ (∀ r, r ≠ 15 → c2.V r = c.V r) ∧
      c2.ram = c.ram ∧ c2.I = c.I ∧ c2.stack = c.stack ∧
      c2.stack_ptr = c.stack_ptr ∧ c2.delay_timer = c.delay_timer ∧
      c2.sound_timer = c.sound_timer ∧ c2.keypad = c.keypad := by
  have h := emulate_dxyn rv c op X Y 0 hop hPC hD hX hY hN.symm
    (by intro t ht; omega)
  refine ⟨_, h, ?_, ?_, rfl, ?_, rfl, rfl, rfl, rfl, rfl, rfl, rfl⟩
  · funext p
    show Bool.xor (c.display p) (rowsMask c.ram c.I (c.V X % 64) 0 0 (c.V Y % 32) p)
        = c.display p
    simp [rowsMask]
  · show updf c.V 15
        (if rowsHit c.ram c.I (c.V X % 64) 0 0 (c.V Y % 32) c.display then 1 else 0) 15 = 0
    simp [updf, rowsHit]
  · intro r hr
    show updf c.V 15
        (if rowsHit c.ram c.I (c.V X % 64) 0 0 (c.V Y % 32) c.display then 1 else 0) r = c.V r
    simp only [updf]
    rw [if_neg hr]

/-- Concrete machine for the C10 witness: opcode D230 (N = 0) at
PC = 0x200, a lit pixel at cell 0 to observe that the framebuffer and VF
are untouched. -/
def c10W : chip8_t :=
  { state := RUNNING
    ram := fun a => if a = 0x200 then 0xD2 else if a = 0x201 then 0x30 else 0
    display := fun p => p = 0
    stack := fun _ => 0
    stack_ptr := 0
    V := fun r => if r = 15 then 1 else 0
    I := 0x300
    PC := 0x200
    delay_timer := 0
    sound_timer := 0
    keypad := fun _ => false }

theorem C10_dxyn_n0_witness :
    (0xD230 = (c10W.ram c10W.PC) <<< 8 ||| c10W.ram (c10W.PC + 1)) ∧
    (c10W.PC + 1 < 4096) ∧ ((0xD230 >>> 12) &&& 0x0F = 0xD) ∧
    (0xD230 &&& 0x0F = 0) ∧
    (∃ c2, emulate_instruction 0 c10W = some c2 ∧
      c2.display = c10W.display ∧ c2.V 15 = 0 ∧
      c2.PC = (c10W.PC + 2) % 65536 ∧ (∀ r, r ≠ 15 → c2.V r = c10W.V r) ∧
      c2.ram = c10W.ram ∧ c2.I = c10W.I ∧ c2.stack = c10W.stack ∧
      c2.stack_ptr = c10W.stack_ptr ∧ c2.delay_timer = c10W.delay_timer ∧
      c2.sound_timer = c10W.sound_timer ∧ c2.keypad = c10W.keypad) :=
  ⟨by decide, by decide, by decide, by decide,
    C10_dxyn_n0 0 c10W 0xD230 2 3 (by decide) (by decide) (by decide)
      (by decide) (by decide) (by decide)⟩

/-- Concrete machine refuting claim C6 as stated: opcode D011 at
PC = 0x200 draws the 1-row sprite at ram[0x300], which is 0x00 (all bits
clear).  Drawing it twice leaves the framebuffer unchanged both times, and
the second draw meets no lit pixel, so VF ends at 0, not 1. -/
def c6X : chip8_t :=
  { state := RUNNING
    ram := fun a => if a = 0x200 then 0xD0 else if a = 0x201 then 0x11 else 0
    display := fun _ => false
    stack := fun _ => 0
    stack_ptr := 0
    V := fun _ => 0
    I := 0x300
    PC := 0x200
    delay_timer := 0
    sound_timer := 0
    keypad := fun _ => false }

/-- Counterexample to claim C6 as stated: executing the same DXYN twice
(same I, memory, V[X], V[Y], N — here a blank sprite) ends with VF = 0,
not the claimed VF = 1. -/
theorem C6_dxyn_involution_cex :
    ((emulate_instruction 0 c6X).bind
        (fun c1 => emulate_instruction 0 { c1 with PC := 0x200 })).map
      (fun c2 => c2.V 15) = some 0 := by
  decide

/-- Claim C6 (amended): executing the same DXYN instruction twice in
succession (same I, memory, V[X], V[Y], N; the second execution re-fetches
the same opcode with PC reset, as in spec scenario 4) always restores the
framebuffer to its state before the first draw (XOR involution); and VF
after the second draw is 1 iff some drawn sprite bit lands on a pixel that
was OFF before the first draw — not unconditionally 1 as claimed (an
all-zero sprite, or one whose drawn bits all covered lit pixels, ends with
VF = 0). -/
theorem C6_dxyn_involution (rv rv2 : Nat) (c c1 c2 : chip8_t) (op X Y N x0 y0 : Nat)
    (hop : op = (c.ram c.PC) <<< 8 ||| c.ram (c.PC + 1))
    (hPC : c.PC + 1 < 4096)
    (hD : (op >>> 12) &&& 0x0F = 0xD)
    (hX : X = (op >>> 8) &&& 0x0F) (hY : Y = (op >>> 4) &&& 0x0F) (hN : N = op &&& 0x0F)
    (hx0 : x0 = c.V X % 64) (hy0 : y0 = c.V Y % 32)
    (hmem : ∀ t, t < N → y0 + t < 32 → c.I + t < 4096)
    (h1 : emulate_instruction rv c = some c1)
    (hVX : c1.V X = c.V X) (hVY : c1.V Y = c.V Y)
    (h2 : emulate_instruction rv2 { c1 with PC := c.PC } = some c2) :
    c2.display = c.display ∧
    (c2.V 15 = 1 ↔ ∃ x y, x < 64 ∧ y < 32 ∧
        targetB c.ram c.I N x0 y0 x y = true ∧ c.display (y * 64 + x) = false) := by
  subst hx0; subst hy0
  have hx0' : c.V X % 64 < 64 := Nat.mod_lt _ (by norm_num)
  have hy0' : c.V Y % 32 < 32 := Nat.mod_lt _ (by norm_num)
  have hchar1 := emulate_dxyn rv c op X Y N hop hPC hD hX hY hN hmem
  rw [hchar1] at h1
  injection h1 with h1
  have hram1 : c1.ram = c.ram := by rw [← h1]
  have hI1 : c1.I = c.I := by rw [← h1]
  have hd1 : c1.display =
      fun p => Bool.xor (c.display p)
        (rowsMask c.ram c.I (c.V X % 64) N 0 (c.V Y % 32) p) := by
    rw [← h1]
  have hchar2 := emulate_dxyn rv2 { c1 with PC := c.PC } op X Y N
    (by show op = (c1.ram c.PC) <<< 8 ||| c1.ram (c.PC + 1); rw [hram1]; exact hop)
    (by show c.PC + 1 < 4096; exact hPC) hD hX hY hN
    (by show ∀ t, t < N → c1.V Y % 32 + t < 32 → c1.I + t < 4096
        rw [hVY, hI1]; exact hmem)
  rw [hchar2] at h2
  injection h2 with h2
  have hd2 : c2.display =
      fun p => Bool.xor (c1.display p)
        (rowsMask c1.ram c1.I (c1.V X % 64) N 0 (c1.V Y % 32) p) := by
    rw [← h2]
  have hv2 : c2.V 15 =
      (if rowsHit c1.ram c1.I (c1.V X % 64) N 0 (c1.V Y % 32) c1.display
       then 1 else 0) := by
    rw [← h2]
    show updf c1.V 15 _ 15 = _
    simp [updf]
  rw [hram1, hI1, hVX, hVY, hd1] at hd2 hv2
  constructor
  · rw [hd2]
    funext p
    simp only []
    cases rowsMask c.ram c.I (c.V X % 64) N 0 (c.V Y % 32) p <;>
      cases c.display p <;> rfl
  · rw [hv2]
    have hififf : ∀ b : Bool, ((if b then 1 else 0 : Nat) = 1 ↔ b = true) := by
      intro b; cases b <;> simp
    rw [hififf]
    rw [rowsHit_iff]
    constructor
    · rintro ⟨p, hm, hd⟩
      have hp2048 := rowsMask_lt2048 c.ram c.I _ hx0' N 0 _ p hy0' hm
      have hoff : c.display p = false := by
        rw [hm] at hd
        cases hcd : c.display p
        · rfl
        · rw [hcd] at hd; exact absurd hd (by simp)
      refine ⟨p % 64, p / 64, Nat.mod_lt _ (by norm_num), by omega, ?_, ?_⟩
      · rw [← rowsMask_eq_targetB c.ram c.I _ _ N (p % 64) (p / 64) hx0' hy0'
            (Nat.mod_lt _ (by norm_num)) (by omega)]
        rw [show p / 64 * 64 + p % 64 = p from by omega]
        exact hm
      · rw [show p / 64 * 64 + p % 64 = p from by omega]
        exact hoff
    · rintro ⟨x, y, hx, hy, htgt, hd⟩
      refine ⟨y * 64 + x, ?_, ?_⟩
      · rw [rowsMask_eq_targetB c.ram c.I _ _ N x y hx0' hy0' hx hy]
        exact htgt
      · rw [rowsMask_eq_targetB c.ram c.I _ _ N x y hx0' hy0' hx hy]
        rw [htgt, hd]
        rfl

/-- Concrete machine for the C6 witness: opcode D011 at PC = 0x200 draws
the 1-row sprite 0x80 at ram[0x300] over an empty framebuffer. -/
def c6W : chip8_t :=
  { state := RUNNING
    ram := fun a =>
      if a = 0x200 then 0xD0 else if a = 0x201 then 0x11
      else if a = 0x300 then 0x80 else 0
    display := fun _ => false
    stack := fun _ => 0
    stack_ptr := 0
    V := fun _ => 0
    I := 0x300
    PC := 0x200
    delay_timer := 0
    sound_timer := 0
    keypad := fun _ => false }

/-- Machine after the first draw of the C6 witness. -/
def c6W1 : chip8_t := (emulate_instruction 0 c6W).getD c6W

/-- Machine after the second draw of the C6 witness. -/
def c6W2 : chip8_t := (emulate_instruction 0 { c6W1 with PC := 0x200 }).getD c6W

theorem C6_dxyn_involution_witness :
    (c6W.PC + 1 < 4096) ∧ ((0xD011 >>> 12) &&& 0x0F = 0xD) ∧
    (c6W2.display = c6W.display ∧
      (c6W2.V 15 = 1 ↔ ∃ x y, x < 64 ∧ y < 32 ∧
          targetB c6W.ram c6W.I 1 0 0 x y = true ∧
          c6W.display (y * 64 + x) = false)) :=
  ⟨by decide, by decide,
    C6_dxyn_involution 0 0 c6W c6W1 c6W2 0xD011 0 1 1 0 0
      (by decide) (by decide) (by decide) (by decide) (by decide) (by decide)
      (by decide) (by decide)
      (by intro t ht h; simp only [c6W]; omega)
      (by rfl) (by decide) (by decide) (by rfl)⟩

/-- Machine exhibiting the missing address wrap on a DXYN sprite read:
opcode D012 (two sprite rows) with I = 0xFFF, so row 1 is read at
ram[0x1000], one past the end of the 4096-byte array. -/
def c2Xa : chip8_t :=
  { state := RUNNING
    ram := fun a => if a = 0x200 then 0xD0 else if a = 0x201 then 0x12 else 0
    display := fun _ => false
    stack := fun _ => 0
    stack_ptr := 0
    V := fun _ => 0
    I := 0xFFF
    PC := 0x200
    delay_timer := 0
    sound_timer := 0
    keypad := fun _ => false }

/-- Machine exhibiting the missing address wrap on the FX33 BCD write:
opcode F033 with I = 0xFFE, so the ones digit is written at ram[0x1000]. -/
def c2Xb : chip8_t :=
  { state := RUNNING
    ram := fun a => if a = 0x200 then 0xF0 else if a = 0x201 then 0x33 else 0
    display := fun _ => false
    stack := fun _ => 0
    stack_ptr := 0
    V := fun _ => 0
    I := 0xFFE
    PC := 0x200
    delay_timer := 0
    sound_timer := 0
    keypad := fun _ => false }

/-- Claim C2 fails on the code: effective addresses past 0xFFF are NOT
taken modulo 4096.  chip8.c indexes ram[I + i] (DXYN, chip8.c:765) and
ram[I + 2] (FX33, chip8.c:854) with no mask, so the access leaves the
4096-byte array — undefined behavior, modelled as none — instead of
wrapping; under the claimed mod-4096 semantics both executions would
succeed (0x1000 mod 4096 = 0x000 is in bounds). -/
theorem C2_no_address_wrap :
    emulate_instruction 0 c2Xa = none ∧ emulate_instruction 0 c2Xb = none :=
  ⟨rfl, rfl⟩

/-- Machine executing 00EE with an empty call stack. -/
def c3U : chip8_t :=
  { state := RUNNING
    ram := fun a => if a = 0x200 then 0x00 else if a = 0x201 then 0xEE else 0
    display := fun _ => false
    stack := fun _ => 0
    stack_ptr := 0
    V := fun _ => 0
    I := 0
    PC := 0x200
    delay_timer := 0
    sound_timer := 0
    keypad := fun _ => false }

/-- Machine executing 2NNN with the 12-entry call stack already full. -/
def c3O : chip8_t :=
  { state := RUNNING
    ram := fun a => if a = 0x200 then 0x23 else if a = 0x201 then 0x45 else 0
    display := fun _ => false
    stack := fun _ => 0
    stack_ptr := 12
    V := fun _ => 0
    I := 0
    PC := 0x200
    delay_timer := 0
    sound_timer := 0
    keypad := fun _ => false }

/-- Claim C3 fails on the code: 2NNN on a full stack and 00EE on an empty
stack raise no StackOverflow/StackUnderflow error — chip8.c:631 and
chip8.c:614 run the push and pop with no capacity check at all, so the
12-entry stack array is accessed out of bounds (undefined behavior,
modelled as none: no defined error value, no uncorrupted state, and the
C program just keeps running on whatever memory it touched). -/
theorem C3_stack_unchecked :
    emulate_instruction 0 c3U = none ∧ emulate_instruction 0 c3O = none :=
  ⟨rfl, rfl⟩

/-- Machine in the RUNNING state with nonzero timers, about to execute the
jump 1200 (an instruction that does not touch the timers). -/
def c4X : chip8_t :=
  { state := RUNNING
    ram := fun a => if a = 0x200 then 0x12 else if a = 0x201 then 0x00 else 0
    display := fun _ => false
    stack := fun _ => 0
    stack_ptr := 0
    V := fun _ => 0
    I := 0
    PC := 0x200
    delay_timer := 5
    sound_timer := 7
    keypad := fun _ => false }

/-- Claim C4 fails on the code: one full iteration of the run loop in the
RUNNING state leaves delay_timer and sound_timer unchanged (5 and 7 stay
5 and 7; the claim requires 4 and 6).  chip8.c's main loop (907-918) calls
handle_input (keypad/run-state only), emulate_instruction, SDL_Delay and
update_screen — no statement anywhere decrements either timer. -/
theorem C4_timers_never_decremented :
    (main_loop_iter 0 c4X).map (fun c => (c.delay_timer, c.sound_timer)) =
      some (5, 7) := by
  decide

/-- Machine executing EX9E with V[X] = 0x10, one past the last keypad
index. -/
def c7X : chip8_t :=
  { state := RUNNING
    ram := fun a => if a = 0x200 then 0xE0 else if a = 0x201 then 0x9E else 0
    display := fun _ => false
    stack := fun _ => 0
    stack_ptr := 0
    V := fun r => if r = 0 then 0x10 else 0
    I := 0
    PC := 0x200
    delay_timer := 0
    sound_timer := 0
    keypad := fun _ => false }

/-- Machine executing EXA1 with V[X] = 0x10. -/
def c7Y : chip8_t :=
  { state := RUNNING
    ram := fun a => if a = 0x200 then 0xE0 else if a = 0x201 then 0xA1 else 0
    display := fun _ => false
    stack := fun _ => 0
    stack_ptr := 0
    V := fun r => if r = 0 then 0x10 else 0
    I := 0
    PC := 0x200
    delay_timer := 0
    sound_timer := 0
    keypad := fun _ => false }

/-- Claim C7 fails on the code: EX9E and EXA1 index keypad[V[X]] with no
& 0xF mask (chip8.c:797, 802), so V[X] = 0x10 reads past the 16-entry
keypad array (undefined behavior, modelled as none) instead of reading
keypad[0]. -/
theorem C7_keypad_unmasked :
    emulate_instruction 0 c7X = none ∧ emulate_instruction 0 c7Y = none :=
  ⟨rfl, rfl⟩

/-- Claim C9 fails on the code: from the initial state with the two-byte
ROM 1F FF loaded at 0x200 (the jump 1FFF), one executed instruction leaves
PC = 0xFFF > 0xFFE, and the following fetch reads ram[0x1000], outside the
4096-byte memory (modelled as none). -/
theorem C9_pc_bound_violated :
    ((emulate_instruction 0 (init_chip8 [0x1F, 0xFF])).map chip8_t.PC = some 0xFFF) ∧
    (0xFFE < 0xFFF) ∧
    ((emulate_instruction 0 (init_chip8 [0x1F, 0xFF])).bind
        (emulate_instruction 0) = none) := by
  refine ⟨by decide, by decide, by rfl⟩

/-- Machine refuting claim C5 as stated: opcode 8FF6 (a shift with
X = Y = F) with V[F] = 1.  The flag — the pre-shift low bit of V[X],
which is 1 — is written to VF first, and the shift then overwrites VF
with 1 >> 1 = 0. -/
def c5X : chip8_t :=
  { state := RUNNING
    ram := fun a => if a = 0x200 then 0x8F else if a = 0x201 then 0xF6 else 0
    display := fun _ => false
    stack := fun _ => 0
    stack_ptr := 0
    V := fun r => if r = 15 then 1 else 0
    I := 0
    PC := 0x200
    delay_timer := 0
    sound_timer := 0
    keypad := fun _ => false }

/-- Counterexample to claim C5 as stated: after 8XY6 with X = F, VF is 0,
not the flag value 1 (the shifted-out bit of V[X] prior to the shift). -/
theorem C5_flag_after_primary_cex :
    (emulate_instruction 0 c5X).map (fun c => c.V 15) = some 0 ∧
    (c5X.V 15 &&& 0x1) = 1 := by
  constructor <;> decide

lemma emulate_8xy4 (rv : Nat) (c : chip8_t) (op X Y : Nat)
    (hop : op = (c.ram c.PC) <<< 8 ||| c.ram (c.PC + 1))
    (hPC : c.PC + 1 < 4096)
    (h8 : (op >>> 12) &&& 0x0F = 0x8)
    (hX : X = (op >>> 8) &&& 0x0F) (hY : Y = (op >>> 4) &&& 0x0F)
    (hN : op &&& 0x0F = 0x4) :
    emulate_instruction rv c =
      some { c with PC := (c.PC + 2) % 65536,
                    V := updf (updf c.V X ((c.V X + c.V Y) % 256)) 15
                           (if 255 < c.V X + c.V Y then 1 else 0) } := by
  subst hop; subst hX; subst hY
  unfold emulate_instruction
  rw [if_pos hPC]
  simp only [h8, hN]
  norm_num

lemma emulate_8xy5 (rv : Nat) (c : chip8_t) (op X Y : Nat)
    (hop : op = (c.ram c.PC) <<< 8 ||| c.ram (c.PC + 1))
    (hPC : c.PC + 1 < 4096)
    (h8 : (op >>> 12) &&& 0x0F = 0x8)
    (hX : X = (op >>> 8) &&& 0x0F) (hY : Y = (op >>> 4) &&& 0x0F)
    (hN : op &&& 0x0F = 0x5) :
    emulate_instruction rv c =
      some { c with PC := (c.PC + 2) % 65536,
                    V := updf (updf c.V X ((c.V X + 256 - c.V Y) % 256)) 15
                           (if c.V Y ≤ c.V X then 1 else 0) } := by
  subst hop; subst hX; subst hY
  unfold emulate_instruction
  rw [if_pos hPC]
  simp only [h8, hN]
  norm_num

lemma emulate_8xy6 (rv : Nat) (c : chip8_t) (op X Y : Nat)
    (hop : op = (c.ram c.PC) <<< 8 ||| c.ram (c.PC + 1))
    (hPC : c.PC + 1 < 4096)
    (h8 : (op >>> 12) &&& 0x0F = 0x8)
    (hX : X = (op >>> 8) &&& 0x0F) (hY : Y = (op >>> 4) &&& 0x0F)
    (hN : op &&& 0x0F = 0x6) :
    emulate_instruction rv c =
      some { c with PC := (c.PC + 2) % 65536,
                    V := updf (updf c.V 15 (c.V X &&& 0x1)) X
                           ((updf c.V 15 (c.V X &&& 0x1)) X >>> 1) } := by
  subst hop; subst hX; subst hY
  unfold emulate_instruction
  rw [if_pos hPC]
  simp only [h8, hN]
  norm_num

lemma emulate_8xy7 (rv : Nat) (c : chip8_t) (op X Y : Nat)
    (hop : op = (c.ram c.PC) <<< 8 ||| c.ram (c.PC + 1))
    (hPC : c.PC + 1 < 4096)
    (h8 : (op >>> 12) &&& 0x0F = 0x8)
    (hX : X = (op >>> 8) &&& 0x0F) (hY : Y = (op >>> 4) &&& 0x0F)
    (hN : op &&& 0x0F = 0x7) :
    emulate_instruction rv c =
      some { c with PC := (c.PC + 2) % 65536,
                    V := updf (updf c.V X ((c.V Y + 256 - c.V X) % 256)) 15
                           (if c.V X ≤ c.V Y then 1 else 0) } := by
  subst hop; subst hX; subst hY
  unfold emulate_instruction
  rw [if_pos hPC]
  simp only [h8, hN]
  norm_num

lemma emulate_8xyE (rv : Nat) (c : chip8_t) (op X Y : Nat)
    (hop : op = (c.ram c.PC) <<< 8 ||| c.ram (c.PC + 1))
    (hPC : c.PC + 1 < 4096)
    (h8 : (op >>> 12) &&& 0x0F = 0x8)
    (hX : X = (op >>> 8) &&& 0x0F) (hY : Y = (op >>> 4) &&& 0x0F)
    (hN : op &&& 0x0F = 0xE) :
    emulate_instruction rv c =
      some { c with PC := (c.PC + 2) % 65536,
                    V := updf (updf c.V 15 ((c.V X &&& 0x80) >>> 7)) X
                           (((updf c.V 15 ((c.V X &&& 0x80) >>> 7)) X <<< 1) % 256) } := by
  subst hop; subst hX; subst hY
  unfold emulate_instruction
  rw [if_pos hPC]
  simp only [h8, hN]
  norm_num

lemma emulate_fx29 (rv : Nat) (c : chip8_t) (op X : Nat)
    (hop : op = (c.ram c.PC) <<< 8 ||| c.ram (c.PC + 1))
    (hPC : c.PC + 1 < 4096)
    (hF : (op >>> 12) &&& 0x0F = 0xF)
    (hNN : op &&& 0x0FF = 0x29)
    (hX : X = (op >>> 8) &&& 0x0F) :
    emulate_instruction rv c =
      some { c with PC := (c.PC + 2) % 65536, I := (c.V X * 5) % 65536 } := by
  subst hop; subst hX
  unfold emulate_instruction
  rw [if_pos hPC]
  simp only [hF, hNN]
  norm_num

/-- Claim C5 (amended): for 8XY4, 8XY5 and 8XY7 the flag is computed from
the original operands and written to VF after the primary write to V[X],
so the final VF is the flag (carry / no-borrow) even when X = F.  For the
shifts 8XY6 and 8XYE, however, chip8.c writes the flag to VF BEFORE
shifting V[X]; with X ≠ F the observable effect agrees with the claim
(VF = shifted-out bit, V[X] shifted), but with X = F the final VF is the
shift applied to the flag value — (V[F] & 1) >> 1 for 8XY6 and
((V[F] & 0x80) >> 7) << 1 mod 256 for 8XYE — not the flag itself. -/
theorem C5_flag_after_primary (rv : Nat) (c : chip8_t) (op X Y : Nat)
    (hop : op = (c.ram c.PC) <<< 8 ||| c.ram (c.PC + 1))
    (hPC : c.PC + 1 < 4096)
    (h8 : (op >>> 12) &&& 0x0F = 0x8)
    (hX : X = (op >>> 8) &&& 0x0F) (hY : Y = (op >>> 4) &&& 0x0F) :
    (op &&& 0x0F = 0x4 → ∃ c2, emulate_instruction rv c = some c2 ∧
      c2.V 15 = (if 255 < c.V X + c.V Y then 1 else 0) ∧
      (X ≠ 15 → c2.V X = (c.V X + c.V Y) % 256)) ∧
    (op &&& 0x0F = 0x5 → ∃ c2, emulate_instruction rv c = some c2 ∧
      c2.V 15 = (if c.V Y ≤ c.V X then 1 else 0) ∧
      (X ≠ 15 → c2.V X = (c.V X + 256 - c.V Y) % 256)) ∧
    (op &&& 0x0F = 0x7 → ∃ c2, emulate_instruction rv c = some c2 ∧
      c2.V 15 = (if c.V X ≤ c.V Y then 1 else 0) ∧
      (X ≠ 15 → c2.V X = (c.V Y + 256 - c.V X) % 256)) ∧
    (op &&& 0x0F = 0x6 → ∃ c2, emulate_instruction rv c = some c2 ∧
      (X = 15 → c2.V 15 = (c.V 15 &&& 0x1) >>> 1) ∧
      (X ≠ 15 → c2.V 15 = (c.V X &&& 0x1) ∧ c2.V X = c.V X >>> 1)) ∧
    (op &&& 0x0F = 0xE → ∃ c2, emulate_instruction rv c = some c2 ∧
      (X = 15 → c2.V 15 = (((c.V 15 &&& 0x80) >>> 7) <<< 1) % 256) ∧
      (X ≠ 15 → c2.V 15 = ((c.V X &&& 0x80) >>> 7) ∧
        c2.V X = (c.V X <<< 1) % 256)) := by
  refine ⟨?_, ?_, ?_, ?_, ?_⟩
  · intro hN
    refine ⟨_, emulate_8xy4 rv c op X Y hop hPC h8 hX hY hN, ?_, ?_⟩
    · show updf (updf c.V X ((c.V X + c.V Y) % 256)) 15
          (if 255 < c.V X + c.V Y then 1 else 0) 15 = _
      simp [updf]
    · intro h15
      show updf (updf c.V X ((c.V X + c.V Y) % 256)) 15
          (if 255 < c.V X + c.V Y then 1 else 0) X = _
      simp [updf, h15]
  · intro hN
    refine ⟨_, emulate_8xy5 rv c op X Y hop hPC h8 hX hY hN, ?_, ?_⟩
    · show updf (updf c.V X ((c.V X + 256 - c.V Y) % 256)) 15
          (if c.V Y ≤ c.V X then 1 else 0) 15 = _
      simp [updf]
    · intro h15
      show updf (updf c.V X ((c.V X + 256 - c.V Y) % 256)) 15
          (if c.V Y ≤ c.V X then 1 else 0) X = _
      simp [updf, h15]
  · intro hN
    refine ⟨_, emulate_8xy7 rv c op X Y hop hPC h8 hX hY hN, ?_, ?_⟩
    · show updf (updf c.V X ((c.V Y + 256 - c.V X) % 256)) 15
          (if c.V X ≤ c.V Y then 1 else 0) 15 = _
      simp [updf]
    · intro h15
      show updf (updf c.V X ((c.V Y + 256 - c.V X) % 256)) 15
          (if c.V X ≤ c.V Y then 1 else 0) X = _
      simp [updf, h15]
  · intro hN
    refine ⟨_, emulate_8xy6 rv c op X Y hop hPC h8 hX hY hN, ?_, ?_⟩
    · intro h15
      subst h15
      show updf (updf c.V 15 (c.V 15 &&& 0x1)) 15
          ((updf c.V 15 (c.V 15 &&& 0x1)) 15 >>> 1) 15 = _
      simp [updf]
    · intro h15
      constructor
      · show updf (updf c.V 15 (c.V X &&& 0x1)) X
            ((updf c.V 15 (c.V X &&& 0x1)) X >>> 1) 15 = _
        simp [updf, h15, Ne.symm h15]
      · show updf (updf c.V 15 (c.V X &&& 0x1)) X
            ((updf c.V 15 (c.V X &&& 0x1)) X >>> 1) X = _
        simp [updf, h15]
  · intro hN
    refine ⟨_, emulate_8xyE rv c op X Y hop hPC h8 hX hY hN, ?_, ?_⟩
    · intro h15
      subst h15
      show updf (updf c.V 15 ((c.V 15 &&& 0x80) >>> 7)) 15
          (((updf c.V 15 ((c.V 15 &&& 0x80) >>> 7)) 15 <<< 1) % 256) 15 = _
      simp [updf]
    · intro h15
      constructor
      · show updf (updf c.V 15 ((c.V X &&& 0x80) >>> 7)) X
            (((updf c.V 15 ((c.V X &&& 0x80) >>> 7)) X <<< 1) % 256) 15 = _
        simp [updf, h15, Ne.symm h15]
      · show updf (updf c.V 15 ((c.V X &&& 0x80) >>> 7)) X
            (((updf c.V 15 ((c.V X &&& 0x80) >>> 7)) X <<< 1) % 256) X = _
        simp [updf, h15]

theorem C5_flag_after_primary_witness :
    (c5X.PC + 1 < 4096) ∧ ((0x8FF6 >>> 12) &&& 0x0F = 0x8) ∧
    ((0x8FF6 &&& 0x0F = 0x4 → ∃ c2, emulate_instruction 0 c5X = some c2 ∧
      c2.V 15 = (if 255 < c5X.V 15 + c5X.V 15 then 1 else 0) ∧
      ((15 : Nat) ≠ 15 → c2.V 15 = (c5X.V 15 + c5X.V 15) % 256)) ∧
    (0x8FF6 &&& 0x0F = 0x5 → ∃ c2, emulate_instruction 0 c5X = some c2 ∧
      c2.V 15 = (if c5X.V 15 ≤ c5X.V 15 then 1 else 0) ∧
      ((15 : Nat) ≠ 15 → c2.V 15 = (c5X.V 15 + 256 - c5X.V 15) % 256)) ∧
    (0x8FF6 &&& 0x0F = 0x7 → ∃ c2, emulate_instruction 0 c5X = some c2 ∧
      c2.V 15 = (if c5X.V 15 ≤ c5X.V 15 then 1 else 0) ∧
      ((15 : Nat) ≠ 15 → c2.V 15 = (c5X.V 15 + 256 - c5X.V 15) % 256)) ∧
    (0x8FF6 &&& 0x0F = 0x6 → ∃ c2, emulate_instruction 0 c5X = some c2 ∧
      ((15 : Nat) = 15 → c2.V 15 = (c5X.V 15 &&& 0x1) >>> 1) ∧
      ((15 : Nat) ≠ 15 → c2.V 15 = (c5X.V 15 &&& 0x1) ∧ c2.V 15 = c5X.V 15 >>> 1)) ∧
    (0x8FF6 &&& 0x0F = 0xE → ∃ c2, emulate_instruction 0 c5X = some c2 ∧
      ((15 : Nat) = 15 → c2.V 15 = (((c5X.V 15 &&& 0x80) >>> 7) <<< 1) % 256) ∧
      ((15 : Nat) ≠ 15 → c2.V 15 = ((c5X.V 15 &&& 0x80) >>> 7) ∧
        c2.V 15 = (c5X.V 15 <<< 1) % 256))) :=
  ⟨by decide, by decide,
    C5_flag_after_primary 0 c5X 0x8FF6 15 15
      (by decide) (by decide) (by decide) (by decide) (by decide)⟩

/-- Machine executing FX29 with V[X] = 0x10 (a value above 0xF). -/
def c8X : chip8_t :=
  { state := RUNNING
    ram := fun a => if a = 0x200 then 0xF0 else if a = 0x201 then 0x29 else 0
    display := fun _ => false
    stack := fun _ => 0
    stack_ptr := 0
    V := fun r => if r = 0 then 0x10 else 0
    I := 0
    PC := 0x200
    delay_timer := 0
    sound_timer := 0
    keypad := fun _ => false }

/-- Counterexample to claim C8 as stated: FX29 with V[X] = 0x10 sets
I = 0x10 * 5 = 80 (chip8.c:847 applies no & 0x0F mask), while the claimed
value (V[X] & 0x0F) * 5 is 0. -/
theorem C8_fx29_no_mask_cex :
    (emulate_instruction 0 c8X).map chip8_t.I = some 80 ∧
    ((0x10 &&& 0x0F) * 5 = 0) := by
  constructor <;> decide

/-- Claim C8 (amended): FX29 sets I to V[X] * 5 (mod 65536; chip8.c never
masks V[X] with 0x0F, so only for V[X] <= 0xF is this the font glyph
address of the low nibble), and besides the pre-incremented PC no other
machine state changes. -/
theorem C8_fx29_no_mask (rv : Nat) (c : chip8_t) (op X : Nat)
    (hop : op = (c.ram c.PC) <<< 8 ||| c.ram (c.PC + 1))
    (hPC : c.PC + 1 < 4096)
    (hF : (op >>> 12) &&& 0x0F = 0xF)
    (hNN : op &&& 0x0FF = 0x29)
    (hX : X = (op >>> 8) &&& 0x0F) :
    ∃ c2, emulate_instruction rv c = some c2 ∧
      c2.I = (c.V X * 5) % 65536 ∧
      c2.PC = (c.PC + 2) % 65536 ∧
      c2.ram = c.ram ∧ c2.display = c.display ∧ c2.V = c.V ∧
      c2.stack = c.stack ∧ c2.stack_ptr = c.stack_ptr ∧
      c2.delay_timer = c.delay_timer ∧ c2.sound_timer = c.sound_timer ∧
      c2.keypad = c.keypad ∧ c2.state = c.state :=
  ⟨_, emulate_fx29 rv c op X hop hPC hF hNN hX,
    rfl, rfl, rfl, rfl, rfl, rfl, rfl, rfl, rfl, rfl, rfl⟩

theorem C8_fx29_no_mask_witness :
    (c8X.PC + 1 < 4096) ∧ ((0xF029 >>> 12) &&& 0x0F = 0xF) ∧
    (∃ c2, emulate_instruction 0 c8X = some c2 ∧
      c2.I = (c8X.V 0 * 5) % 65536 ∧
      c2.PC = (c8X.PC + 2) % 65536 ∧
      c2.ram = c8X.ram ∧ c2.display = c8X.display ∧ c2.V = c8X.V ∧
      c2.stack = c8X.stack ∧ c2.stack_ptr = c8X.stack_ptr ∧
      c2.delay_timer = c8X.delay_timer ∧ c2.sound_timer = c8X.sound_timer ∧
      c2.keypad = c8X.keypad ∧ c2.state = c8X.state) :=
  ⟨by decide, by decide,
    C8_fx29_no_mask 0 c8X 0xF029 0
      (by decide) (by decide) (by decide) (by decide) (by decide)⟩
